import Mathlib

/-!
# Verification of the KAG session-scoped context-cache orchestrator

Shallow embedding of `src/kag/kv_cache/manager.py` (KVCacheManager),
`src/kag/kv_cache/session.py` (Session, SessionManager) and the chunk
retrieval interface of `src/kag/document_processor/processor.py`
(DocumentProcessor.get_document_chunks), together with proofs about the
behaviour of `ensure_documents_loaded`, the session sweeper and document
binding.

Modelling conventions:
* Python dicts become association lists `List (String × α)` with unique
  keys, manipulated by `alookup` / `aset` / `aerase` which mirror dict
  access, in-place update and `del`.
* The segment store (`DocumentProcessor.get_document_chunks`) is a
  parameter `store : String → String → List String` mapping a document id
  and a user id to the ordered chunk list (`ORDER BY chunk_index`); an
  unknown or inaccessible document yields `[]`, exactly as the Python
  returns an empty list rather than raising.
* The vLLM engine (`AsyncLLMEngine.prefill_kv_cache`) is a parameter
  `Option (String → Except String String)`: `none` models
  `self.llm_engine = None`; `some build` maps the full prompt to either an
  opaque KV-cache handle (modelled as a `String`) or a raised exception
  carrying a message.
* Timestamps (`time.time()`) are passed explicitly as `now : Nat`.
* `ensure_documents_loaded` additionally returns the list of document
  texts for which the engine was invoked (`builtTexts`), so that the
  number and content of builder invocations is observable; the Python
  merely performs the calls.
-/

/-- Association list lookup, mirroring Python `d[k]` / `k in d`. -/
def alookup {α : Type} (m : List (String × α)) (k : String) : Option α :=
  match m with
  | [] => none
  | (k', v) :: rest => if k' = k then some v else alookup rest k

/-- Association list update, mirroring Python `d[k] = v` (in-place update
of an existing key, append of a fresh one). -/
def aset {α : Type} (m : List (String × α)) (k : String) (v : α) :
    List (String × α) :=
  match m with
  | [] => [(k, v)]
  | (k', v') :: rest =>
      if k' = k then (k', v) :: rest else (k', v') :: aset rest k v

/-- Association list deletion, mirroring Python `del d[k]` (keys are
unique in a dict, so removing the first binding removes the binding). -/
def aerase {α : Type} (m : List (String × α)) (k : String) :
    List (String × α) :=
  match m with
  | [] => []
  | (k', v') :: rest =>
      if k' = k then rest else (k', v') :: aerase rest k

/-- The mutable state of `KVCacheManager`: `session_kv_caches` maps a
session id to its (opaque) KV-cache handle, `session_document_map` maps a
session id to the document-id list it was built from (the fingerprint).
The source also declares `document_token_counts`, which no code ever
writes or reads, so it is omitted. -/
structure ManagerState where
  session_kv_caches : List (String × String)
  session_document_map : List (String × List String)
deriving DecidableEq, Repr

/-- Python `set(current_docs) == set(document_ids)` on two string lists:
equality of the underlying element sets, i.e. mutual inclusion. -/
def setEqL (a b : List String) : Bool :=
  a.all (fun x => b.contains x) && b.all (fun x => a.contains x)

/-- The chunk-gathering loop of `ensure_documents_loaded` (lines 74-81):
for each document id in order, fetch its chunks; empty results are
skipped (``continue``), which coincides with appending nothing. -/
def gatherChunks (store : String → String → List String)
    (user_id : String) : List String → List String
  | [] => []
  | d :: rest => store d user_id ++ gatherChunks store user_id rest

/-- The prompt built in `_create_kv_cache_for_documents` (line 133) around
the double-newline-joined document text. -/
def promptFor (document_text : String) : String :=
  "<system>\nThe following are important documents to reference: "
    ++ document_text ++ "\n</system>"

/-- Outcome of an `ensure_documents_loaded` call: a normal return, the
`ValueError("LLM engine not connected")` raised at manager.py line 112, or
an exception re-raised from the engine call (line 159). -/
inductive EnsureResult
  | ok
  | engineNotConnected
  | buildFailed (msg : String)
deriving DecidableEq, Repr

/-- Result of one `ensure_documents_loaded` call: the manager state after
the call, how the call returned, and the document texts for which the
engine was invoked (one entry per builder invocation, also when the
invocation failed). -/
structure EnsureOut where
  state : ManagerState
  result : EnsureResult
  builtTexts : List String
deriving DecidableEq, Repr

/-- The cache-miss path of `ensure_documents_loaded` (lines 74-94)
together with `_create_kv_cache_for_documents` (lines 96-159): gather
chunks, return early if none, fail if no engine, otherwise join the
chunks with a double newline, invoke the engine on the wrapped prompt,
and on success store the KV cache (line 152) and then the fingerprint
(line 92).  On a raised exception nothing is stored. -/
def ensureRebuild (store : String → String → List String)
    (engine : Option (String → Except String String))
    (st : ManagerState) (session_id : String) (document_ids : List String)
    (user_id : String) : EnsureOut :=
  let chunks := gatherChunks store user_id document_ids
  if chunks.isEmpty then
    ⟨st, .ok, []⟩
  else
    match engine with
    | none => ⟨st, .engineNotConnected, []⟩
    | some build =>
        let document_text := String.intercalate "\n\n" chunks
        match build (promptFor document_text) with
        | .error msg => ⟨st, .buildFailed msg, [document_text]⟩
        | .ok kv =>
            ⟨{ session_kv_caches := aset st.session_kv_caches session_id kv,
               session_document_map :=
                 aset st.session_document_map session_id document_ids },
             .ok, [document_text]⟩

/-- `KVCacheManager.ensure_documents_loaded` (manager.py lines 52-94).
The body runs under `self.lock`; this function is its sequential
behaviour.  First the fingerprint check (lines 68-72): if the session has
a stored document list whose set equals the requested set, return
immediately; otherwise run the rebuild path. -/
def ensure_documents_loaded (store : String → String → List String)
    (engine : Option (String → Except String String))
    (st : ManagerState) (session_id : String) (document_ids : List String)
    (user_id : String) : EnsureOut :=
  match alookup st.session_document_map session_id with
  | some current_docs =>
      if setEqL current_docs document_ids then ⟨st, .ok, []⟩
      else ensureRebuild store engine st session_id document_ids user_id
  | none => ensureRebuild store engine st session_id document_ids user_id

/-- Whether the fingerprint check of lines 68-72 hits for this state and
request. -/
def isHit (st : ManagerState) (session_id : String)
    (document_ids : List String) : Bool :=
  match alookup st.session_document_map session_id with
  | some current_docs => setEqL current_docs document_ids
  | none => false

/-- `KVCacheManager.clear_session_kv_cache` (manager.py lines 173-185):
drops the KV cache and the fingerprint of a session.  No code in the
repository calls it from the session sweeper. -/
def clear_session_kv_cache (st : ManagerState) (session_id : String) :
    ManagerState :=
  { session_kv_caches := aerase st.session_kv_caches session_id,
    session_document_map := aerase st.session_document_map session_id }

/-- `KVCacheManager.get_session_kv_cache` (manager.py lines 161-171): the
read through which a caller observes the installed handle. -/
def get_session_kv_cache (st : ManagerState) (session_id : String) :
    Option String :=
  alookup st.session_kv_caches session_id

/-! ## Session registry (`src/kag/kv_cache/session.py`) -/

/-- A `Session` object (session.py lines 21-65).  Conversation messages
are opaque; timestamps are `Nat`s supplied by the caller in place of
`time.time()`. -/
structure Session where
  session_id : String
  user_id : String
  created_at : Nat
  last_accessed_at : Nat
  conversation_history : List String
  document_ids : List String
deriving DecidableEq, Repr

/-- The list operation performed by `Session.add_documents` (session.py
line 64): `self.document_ids.extend([d for d in document_ids if d not in
self.document_ids])`.  The membership test is against the list as it was
before the `extend`, exactly as the Python comprehension evaluates before
`extend` mutates. -/
def pyUnion (old new : List String) : List String :=
  old ++ new.filter (fun d => decide (¬ d ∈ old))

/-- `Session.add_documents` (session.py lines 57-65). -/
def Session.add_documents (s : Session) (document_ids : List String)
    (now : Nat) : Session :=
  { s with
    document_ids := pyUnion s.document_ids document_ids,
    last_accessed_at := now }

/-- The mutable state of `SessionManager` (session.py lines 93-97). -/
structure SessionManagerState where
  sessions : List (String × Session)
  user_sessions : List (String × List String)
  session_timeout : Nat
deriving DecidableEq, Repr

/-- `SessionManager.get_or_create_session` (session.py lines 99-126). -/
def get_or_create_session (st : SessionManagerState) (session_id : String)
    (user_id : String) (now : Nat) : Session × SessionManagerState :=
  match alookup st.sessions session_id with
  | some s =>
      let s' := { s with last_accessed_at := now }
      (s', { st with sessions := aset st.sessions session_id s' })
  | none =>
      let s : Session :=
        { session_id := session_id, user_id := user_id, created_at := now,
          last_accessed_at := now, conversation_history := [],
          document_ids := [] }
      let st1 := { st with sessions := aset st.sessions session_id s }
      let st2 :=
        { st1 with
          user_sessions :=
            match alookup st1.user_sessions user_id with
            | none => aset st1.user_sessions user_id [session_id]
            | some l => aset st1.user_sessions user_id (l ++ [session_id]) }
      (s, st2)

/-- `SessionManager.get_session` (session.py lines 128-143): lookup that
bumps `last_accessed_at` on the found (shared, mutable) session object. -/
def get_session (st : SessionManagerState) (session_id : String)
    (now : Nat) : Option Session × SessionManagerState :=
  match alookup st.sessions session_id with
  | none => (none, st)
  | some s =>
      let s' := { s with last_accessed_at := now }
      (some s', { st with sessions := aset st.sessions session_id s' })

/-- `SessionManager.associate_documents` (session.py lines 173-187):
no-op with a warning when the session is absent, otherwise
`add_documents` on the stored session object. -/
def associate_documents (st : SessionManagerState) (session_id : String)
    (document_ids : List String) (now : Nat) : SessionManagerState :=
  match get_session st session_id now with
  | (none, st') => st'
  | (some s, st') =>
      { st' with
        sessions := aset st'.sessions session_id
          (s.add_documents document_ids now) }

/-- Python `list.remove(x)`: drop the first occurrence.  `delete_session`
only calls it after checking membership, and on an absent element this
returns the list unchanged, so the guard is immaterial. -/
def removeFirst (l : List String) (x : String) : List String :=
  match l with
  | [] => []
  | y :: rest => if y = x then rest else y :: removeFirst rest x

/-- `SessionManager.delete_session` (session.py lines 211-236): remove
the session id from the owning user's reverse index and from the session
table.  Nothing here touches the `KVCacheManager`. -/
def delete_session (st : SessionManagerState) (session_id : String) :
    Bool × SessionManagerState :=
  match alookup st.sessions session_id with
  | none => (false, st)
  | some s =>
      let us :=
        match alookup st.user_sessions s.user_id with
        | none => st.user_sessions
        | some l =>
            aset st.user_sessions s.user_id (removeFirst l session_id)
      (true, { sessions := aerase st.sessions session_id,
               user_sessions := us,
               session_timeout := st.session_timeout })

/-- `SessionManager.cleanup_expired_sessions` (session.py lines 238-258):
collect the ids whose idle time strictly exceeds the timeout, then delete
each; returns the number collected. -/
def cleanup_expired_sessions (st : SessionManagerState) (now : Nat) :
    Nat × SessionManagerState :=
  let expired := (st.sessions.filter
      (fun p => decide (now - p.2.last_accessed_at > st.session_timeout))).map
      (fun p => p.1)
  (expired.length,
   expired.foldl (fun acc sid => (delete_session acc sid).2) st)

/-- The whole system state as wired in `src/kag/server/main.py` lines
42-43: one `SessionManager` and one `KVCacheManager`, two independent
objects. -/
structure SystemState where
  registry : SessionManagerState
  cache : ManagerState
deriving DecidableEq, Repr

/-- A sweep run over the system.  The sweeper of the repository is
`SessionManager.cleanup_expired_sessions`, which holds no reference to
the `KVCacheManager` and is the only eviction path; no caller pairs it
with `clear_session_kv_cache`, so a sweep leaves the cache manager's two
maps exactly as they were. -/
def sweepSystem (sys : SystemState) (now : Nat) : SystemState :=
  { registry := (cleanup_expired_sessions sys.registry now).2,
    cache := sys.cache }

/-! ## Concurrency model for `ensure_documents_loaded`

`ensure_documents_loaded` runs its entire body inside `async with
self.lock` (manager.py line 66), a single process-wide `asyncio.Lock`
created in `__init__` (line 42).  The suspension points inside the body
(`get_document_chunks`, `prefill_kv_cache`) keep the lock held, so no
other `ensure_documents_loaded` call can interleave with a running body:
a call's observable behaviour is (1) wait until the lock is free and take
it, (2) run the whole body atomically, release the lock and return.  The
model below makes exactly those two transitions; a task suspended on the
lock has no enabled transition. -/

/-- Phase of one in-flight `ensure_documents_loaded` call: not yet
holding the lock, holding the lock (rebuild in flight), or returned. -/
inductive TaskPhase
  | start
  | locked
  | finished (result : EnsureResult)
deriving DecidableEq, Repr

/-- One concurrent `ensure_documents_loaded(session_id, document_ids,
user_id)` caller. -/
structure CTask where
  sid : String
  docs : List String
  uid : String
  phase : TaskPhase
deriving DecidableEq, Repr

/-- A configuration of the concurrent system: the shared manager state,
which task (if any) currently holds `self.lock`, the tasks, and a running
count of engine invocations performed so far. -/
structure OrchConfig where
  mgr : ManagerState
  lockHolder : Option Nat
  tasks : List CTask
  builds : Nat
deriving DecidableEq, Repr

/-- Interleaving semantics: task `i` either takes the free lock, or — as
the lock holder — runs the body of `ensure_documents_loaded` and releases
the lock.  A task whose `acquire` is disabled because another task holds
the lock has no transition at all: it is suspended on `self.lock`. -/
inductive OrchStep (store : String → String → List String)
    (engine : Option (String → Except String String)) :
    OrchConfig → Nat → OrchConfig → Prop
  | acquire (cfg : OrchConfig) (i : Nat) (t : CTask)
      (hfree : cfg.lockHolder = none)
      (ht : cfg.tasks[i]? = some t)
      (hph : t.phase = .start) :
      OrchStep store engine cfg i
        { cfg with
          lockHolder := some i,
          tasks := cfg.tasks.set i { t with phase := .locked } }
  | finish (cfg : OrchConfig) (i : Nat) (t : CTask)
      (hhold : cfg.lockHolder = some i)
      (ht : cfg.tasks[i]? = some t)
      (hph : t.phase = .locked) :
      OrchStep store engine cfg i
        { mgr := (ensure_documents_loaded store engine cfg.mgr
            t.sid t.docs t.uid).state,
          lockHolder := none,
          tasks := cfg.tasks.set i
            { t with phase := .finished (ensure_documents_loaded store
                engine cfg.mgr t.sid t.docs t.uid).result },
          builds := cfg.builds + (ensure_documents_loaded store engine
            cfg.mgr t.sid t.docs t.uid).builtTexts.length }

/-- Reflexive-transitive closure of `OrchStep` over any task indices. -/
inductive OrchReaches (store : String → String → List String)
    (engine : Option (String → Except String String)) :
    OrchConfig → OrchConfig → Prop
  | refl (cfg : OrchConfig) : OrchReaches store engine cfg cfg
  | tail {a b c : OrchConfig} {i : Nat} :
      OrchReaches store engine a b → OrchStep store engine b i c →
      OrchReaches store engine a c

/-- All tasks are callers for the same session, document list and user,
none yet started. -/
def tasksAllStart (cfg : OrchConfig) (sid : String) (docs : List String)
    (uid : String) : Bool :=
  cfg.tasks.all (fun t => decide (t.sid = sid) && decide (t.docs = docs)
    && decide (t.uid = uid) && decide (t.phase = .start))

/-- Every task has returned. -/
def allFinished (cfg : OrchConfig) : Bool :=
  cfg.tasks.all (fun t =>
    match t.phase with
    | .finished _ => true
    | _ => false)

/-- Every task has returned normally. -/
def allFinishedOk (cfg : OrchConfig) : Bool :=
  cfg.tasks.all (fun t => decide (t.phase = .finished .ok))

/-- The lock discipline: when nobody holds the lock no rebuild is in
flight, and when task `i` holds it, `i` is the only task mid-rebuild. -/
def LockInv (cfg : OrchConfig) : Prop :=
  (cfg.lockHolder = none →
    ∀ (j : Nat) (t : CTask), cfg.tasks[j]? = some t →
      t.phase ≠ .locked) ∧
  (∀ i : Nat, cfg.lockHolder = some i →
    ∀ (j : Nat) (t : CTask), cfg.tasks[j]? = some t →
      t.phase = .locked → j = i)

/-- At most one rebuild is in flight in a configuration. -/
def AtMostOneRebuildInFlight (cfg : OrchConfig) : Prop :=
  ∀ (j k : Nat) (tj tk : CTask),
    cfg.tasks[j]? = some tj → cfg.tasks[k]? = some tk →
    tj.phase = .locked → tk.phase = .locked → j = k

/-- Invariant for a family of identical callers started on `mgr0`:
either nobody has finished and nothing happened yet, or the single
rebuild has run — the manager state is the post-rebuild state, exactly
one engine invocation was counted, and every finished caller returned
normally. -/
def BuildInv (store : String → String → List String)
    (engine : Option (String → Except String String)) (sid : String)
    (docs : List String) (uid : String) (mgr0 : ManagerState)
    (cfg : OrchConfig) : Prop :=
  (∀ (j : Nat) (t : CTask), cfg.tasks[j]? = some t →
    t.sid = sid ∧ t.docs = docs ∧ t.uid = uid) ∧
  ((cfg.mgr = mgr0 ∧ cfg.builds = 0 ∧
      (∀ (j : Nat) (t : CTask), cfg.tasks[j]? = some t →
        ∀ r : EnsureResult, t.phase ≠ .finished r)) ∨
   (cfg.mgr = (ensure_documents_loaded store engine mgr0 sid docs
        uid).state ∧
    cfg.builds = 1 ∧
    (∀ (j : Nat) (t : CTask) (r : EnsureResult),
      cfg.tasks[j]? = some t → t.phase = .finished r →
      r = .ok)))

/-! ## Concrete fixtures used by witnesses and counterexamples -/

/-- A segment store in which every document resolves to zero segments. -/
def emptyStore : String → String → List String := fun _ _ => []

/-- The §8 scenario store: `d1` has segments `["a","b"]`, `d2` has
`["c"]`, everything else is unknown. -/
def demoStore : String → String → List String :=
  fun d _ => if d = "d1" then ["a", "b"] else if d = "d2" then ["c"] else []

/-- A store with document `X` owning three segments and `Y` unknown. -/
def storeXY : String → String → List String :=
  fun d _ => if d = "X" then ["x1", "x2", "x3"] else []

/-- An engine whose prefill always succeeds with one opaque handle. -/
def okEngine : String → Except String String := fun _ => .ok "handle1"

/-- An engine whose prefill always raises. -/
def failEngine : String → Except String String := fun _ => .error "boom"

/-- The empty manager state (a freshly constructed `KVCacheManager`). -/
def st0 : ManagerState := ⟨[], []⟩

/-- A manager state with a previously cached entry for session `s1`. -/
def stPrior : ManagerState := ⟨[("s1", "oldHandle")], [("s1", ["dOld"])]⟩

/-- A registry holding one session, last touched at time 0, with a
10-second timeout. -/
def expiredRegistry : SessionManagerState :=
  { sessions := [("s1", ⟨"s1", "u", 0, 0, [], ["d1"]⟩)],
    user_sessions := [("u", ["s1"])],
    session_timeout := 10 }

/-- Registry plus a cache manager entry for the same session `s1`. -/
def sysW : SystemState :=
  ⟨expiredRegistry, ⟨[("s1", "h")], [("s1", ["d1"])]⟩⟩

/-- A session object used by the `bindDocuments` witness. -/
def sessionW : Session := ⟨"s", "u", 0, 0, [], ["d0"]⟩

/-- A manager state whose fingerprint for `s1` is `["d1"]`. -/
def stHit : ManagerState := ⟨[("s1", "h")], [("s1", ["d1"])]⟩

/-- Two concurrent callers for session `s1` with documents
`["d1","d2"]`, nothing started, on an empty manager. -/
def cfgW0 : OrchConfig :=
  ⟨st0, none,
   [⟨"s1", ["d1", "d2"], "u", .start⟩, ⟨"s1", ["d1", "d2"], "u", .start⟩],
   0⟩

/-- The configuration after both callers of `cfgW0` have completed:
one engine invocation, the handle installed, both callers returned
normally. -/
def cfgWFinal : OrchConfig :=
  ⟨⟨[("s1", "handle1")], [("s1", ["d1", "d2"])]⟩, none,
   [⟨"s1", ["d1", "d2"], "u", .finished .ok⟩,
    ⟨"s1", ["d1", "d2"], "u", .finished .ok⟩],
   1⟩

/-- Two tasks for two distinct sessions, with the first already holding
the lock (its rebuild is in flight). -/
def cfgBlocked : OrchConfig :=
  ⟨st0, some 0,
   [⟨"s1", ["d1"], "u", .locked⟩, ⟨"s2", ["d2"], "u", .start⟩],
   0⟩

/-- `cfgBlocked`, before the first task takes the lock. -/
def cfgTwoSessions : OrchConfig :=
  ⟨st0, none,
   [⟨"s1", ["d1"], "u", .start⟩, ⟨"s2", ["d2"], "u", .start⟩],
   0⟩

/-- Task `i` has no enabled transition in `cfg`: it is suspended on
`self.lock` and cannot make progress until the holder releases it. -/
def Suspended (store : String → String → List String)
    (engine : Option (String → Except String String)) (cfg : OrchConfig)
    (i : Nat) : Prop :=
  ∀ c : OrchConfig, ¬ OrchStep store engine cfg i c

/-! ## Helper lemmas about the association-list primitives -/

theorem alookup_aset_self {α : Type} (m : List (String × α)) (k : String)
    (v : α) : alookup (aset m k v) k = some v := by
  induction m with
  | nil => simp [aset, alookup]
  | cons p rest ih =>
      obtain ⟨k', v'⟩ := p
      by_cases h : k' = k <;> simp [aset, alookup, h, ih]

theorem alookup_aset_ne {α : Type} (m : List (String × α)) {k k' : String}
    (v : α) (hne : k' ≠ k) : alookup (aset m k v) k' = alookup m k' := by
  induction m with
  | nil => simp [aset, alookup, Ne.symm hne]
  | cons p rest ih =>
      obtain ⟨k₀, v₀⟩ := p
      by_cases h : k₀ = k
      · subst h
        simp [aset, alookup, Ne.symm hne]
      · simp [aset, alookup, h, ih]

theorem alookup_not_mem_keys {α : Type} (m : List (String × α)) (k : String)
    (h : k ∉ m.map Prod.fst) : alookup m k = none := by
  induction m with
  | nil => rfl
  | cons p rest ih =>
      obtain ⟨k₀, v₀⟩ := p
      simp only [List.map_cons, List.mem_cons, not_or] at h
      simp [alookup, Ne.symm h.1, ih h.2]

theorem alookup_aerase_self {α : Type} (m : List (String × α)) (k : String)
    (hnd : (m.map Prod.fst).Nodup) : alookup (aerase m k) k = none := by
  induction m with
  | nil => rfl
  | cons p rest ih =>
      obtain ⟨k', v'⟩ := p
      simp only [List.map_cons, List.nodup_cons] at hnd
      by_cases h : k' = k
      · subst h
        simpa [aerase] using alookup_not_mem_keys rest k' hnd.1
      · simp [aerase, alookup, h, ih hnd.2]

theorem alookup_aerase_none {α : Type} (m : List (String × α))
    (k k' : String) (h : alookup m k' = none) :
    alookup (aerase m k) k' = none := by
  induction m with
  | nil => simp [aerase, alookup]
  | cons p rest ih =>
      obtain ⟨k₀, v₀⟩ := p
      by_cases hk : k₀ = k'
      · simp [alookup, hk] at h
      · simp only [alookup, if_neg hk] at h
        by_cases he : k₀ = k
        · simpa [aerase, he] using h
        · simp [aerase, alookup, he, hk, ih h]

theorem aerase_keys_sublist {α : Type} (m : List (String × α)) (k : String) :
    ((aerase m k).map Prod.fst).Sublist (m.map Prod.fst) := by
  induction m with
  | nil => simp [aerase]
  | cons p rest ih =>
      obtain ⟨k₀, v₀⟩ := p
      by_cases h : k₀ = k
      · simp only [aerase, if_pos h, List.map_cons]
        exact List.sublist_cons_self _ _
      · simpa [aerase, h] using ih.cons₂ k₀

theorem aerase_keys_nodup {α : Type} (m : List (String × α)) (k : String)
    (hnd : (m.map Prod.fst).Nodup) :
    ((aerase m k).map Prod.fst).Nodup :=
  hnd.sublist (aerase_keys_sublist m k)

/-! ## Helper lemmas about set-equality of id lists and chunk gathering -/

theorem setEqL_iff {a b : List String} :
    setEqL a b = true ↔ ∀ x, x ∈ a ↔ x ∈ b := by
  simp only [setEqL, Bool.and_eq_true, List.all_eq_true]
  constructor
  · rintro ⟨h1, h2⟩ x
    exact ⟨fun hx => by simpa using h1 x hx, fun hx => by simpa using h2 x hx⟩
  · intro h
    exact ⟨fun x hx => by simpa using (h x).1 hx,
           fun x hx => by simpa using (h x).2 hx⟩

theorem setEqL_refl (a : List String) : setEqL a a = true :=
  setEqL_iff.2 (fun _ => Iff.rfl)

theorem setEqL_trans {a b c : List String} (h1 : setEqL a b = true)
    (h2 : setEqL b c = true) : setEqL a c = true :=
  setEqL_iff.2 (fun x => (setEqL_iff.1 h1 x).trans (setEqL_iff.1 h2 x))

theorem setEqL_symm {a b : List String} (h : setEqL a b = true) :
    setEqL b a = true :=
  setEqL_iff.2 (fun x => (setEqL_iff.1 h x).symm)

theorem gatherChunks_eq_nil_iff (store : String → String → List String)
    (u : String) (docs : List String) :
    gatherChunks store u docs = [] ↔ ∀ d ∈ docs, store d u = [] := by
  induction docs with
  | nil => simp [gatherChunks]
  | cons d rest ih => simp [gatherChunks, ih]

/-- Gathering skips exactly the documents that resolve to no segments:
the result is the same as gathering over the non-empty documents only. -/
theorem gatherChunks_filter_nonempty (store : String → String → List String)
    (u : String) (docs : List String) :
    gatherChunks store u docs
      = gatherChunks store u
          (docs.filter (fun d => !(store d u).isEmpty)) := by
  induction docs with
  | nil => rfl
  | cons d rest ih =>
      by_cases h : store d u = []
      · simp [gatherChunks, h, List.filter_cons, ih]
      · have : (store d u).isEmpty = false := by
          simpa [List.isEmpty_iff] using h
        simp [gatherChunks, List.filter_cons, this, ih]

/-! ## Path equations for `ensure_documents_loaded` -/

theorem ensure_hit (store : String → String → List String)
    (engine : Option (String → Except String String)) (st : ManagerState)
    (sid : String) (docs : List String) (uid : String)
    (h : isHit st sid docs = true) :
    ensure_documents_loaded store engine st sid docs uid = ⟨st, .ok, []⟩ := by
  revert h
  unfold ensure_documents_loaded isHit
  cases hl : alookup st.session_document_map sid with
  | none => intro h; simp at h
  | some cur =>
      intro h
      have h' : setEqL cur docs = true := h
      simp [h']

theorem ensure_miss (store : String → String → List String)
    (engine : Option (String → Except String String)) (st : ManagerState)
    (sid : String) (docs : List String) (uid : String)
    (h : isHit st sid docs = false) :
    ensure_documents_loaded store engine st sid docs uid
      = ensureRebuild store engine st sid docs uid := by
  revert h
  unfold ensure_documents_loaded isHit
  cases hl : alookup st.session_document_map sid with
  | none => intro h; simp
  | some cur =>
      intro h
      have h' : setEqL cur docs = false := h
      simp [h']

theorem ensureRebuild_empty (store : String → String → List String)
    (engine : Option (String → Except String String)) (st : ManagerState)
    (sid : String) (docs : List String) (uid : String)
    (h : gatherChunks store uid docs = []) :
    ensureRebuild store engine st sid docs uid = ⟨st, .ok, []⟩ := by
  unfold ensureRebuild
  simp [h]

theorem ensureRebuild_noEngine (store : String → String → List String)
    (st : ManagerState) (sid : String) (docs : List String) (uid : String)
    (h : gatherChunks store uid docs ≠ []) :
    ensureRebuild store none st sid docs uid
      = ⟨st, .engineNotConnected, []⟩ := by
  unfold ensureRebuild
  simp [List.isEmpty_iff, h]

theorem ensureRebuild_buildOk (store : String → String → List String)
    (build : String → Except String String) (st : ManagerState)
    (sid : String) (docs : List String) (uid : String) (kv : String)
    (hne : gatherChunks store uid docs ≠ [])
    (hb : build (promptFor
        (String.intercalate "\n\n" (gatherChunks store uid docs)))
      = .ok kv) :
    ensureRebuild store (some build) st sid docs uid
      = ⟨{ session_kv_caches := aset st.session_kv_caches sid kv,
           session_document_map := aset st.session_document_map sid docs },
         .ok,
         [String.intercalate "\n\n" (gatherChunks store uid docs)]⟩ := by
  unfold ensureRebuild
  simp [List.isEmpty_iff, hne, hb]

theorem ensureRebuild_buildErr (store : String → String → List String)
    (build : String → Except String String) (st : ManagerState)
    (sid : String) (docs : List String) (uid : String) (msg : String)
    (hne : gatherChunks store uid docs ≠ [])
    (hb : build (promptFor
        (String.intercalate "\n\n" (gatherChunks store uid docs)))
      = .error msg) :
    ensureRebuild store (some build) st sid docs uid
      = ⟨st, .buildFailed msg,
         [String.intercalate "\n\n" (gatherChunks store uid docs)]⟩ := by
  unfold ensureRebuild
  simp [List.isEmpty_iff, hne, hb]

/-! ## Further helpers about `ensure_documents_loaded` -/

theorem isHit_intro {st : ManagerState} {sid : String} {cur docs : List String}
    (hl : alookup st.session_document_map sid = some cur)
    (hs : setEqL cur docs = true) : isHit st sid docs = true := by
  unfold isHit
  rw [hl]
  exact hs

/-- Combined success path: a cache miss with usable segments and a
succeeding engine stores the handle and then the fingerprint, invoking
the engine on exactly one text. -/
theorem ensure_build_spec (store : String → String → List String)
    (build : String → Except String String) (st : ManagerState)
    (sid : String) (docs : List String) (uid : String) (kv : String)
    (hmiss : isHit st sid docs = false)
    (hne : gatherChunks store uid docs ≠ [])
    (hb : build (promptFor
        (String.intercalate "\n\n" (gatherChunks store uid docs)))
      = .ok kv) :
    ensure_documents_loaded store (some build) st sid docs uid
      = ⟨{ session_kv_caches := aset st.session_kv_caches sid kv,
           session_document_map := aset st.session_document_map sid docs },
         .ok,
         [String.intercalate "\n\n" (gatherChunks store uid docs)]⟩ := by
  rw [ensure_miss store (some build) st sid docs uid hmiss]
  exact ensureRebuild_buildOk store build st sid docs uid kv hne hb

/-- After the success path, the very same request is a cache hit. -/
theorem isHit_after_build (store : String → String → List String)
    (build : String → Except String String) (st : ManagerState)
    (sid : String) (docs : List String) (uid : String) (kv : String)
    (hmiss : isHit st sid docs = false)
    (hne : gatherChunks store uid docs ≠ [])
    (hb : build (promptFor
        (String.intercalate "\n\n" (gatherChunks store uid docs)))
      = .ok kv) :
    isHit (ensure_documents_loaded store (some build) st sid docs
      uid).state sid docs = true := by
  rw [ensure_build_spec store build st sid docs uid kv hmiss hne hb]
  exact isHit_intro (alookup_aset_self _ _ _) (setEqL_refl docs)

/-- Frame property of every non-`ok` return: no failure path of
`ensure_documents_loaded` writes to either map. -/
theorem ensure_failed_state_eq (store : String → String → List String)
    (engine : Option (String → Except String String)) (st : ManagerState)
    (sid : String) (docs : List String) (uid : String)
    (hres : (ensure_documents_loaded store engine st sid docs uid).result
      ≠ .ok) :
    (ensure_documents_loaded store engine st sid docs uid).state = st := by
  by_cases hhit : isHit st sid docs = true
  · rw [ensure_hit store engine st sid docs uid hhit] at hres
    exact absurd rfl hres
  · have hmiss : isHit st sid docs = false := by
      simpa using hhit
    rw [ensure_miss store engine st sid docs uid hmiss] at hres ⊢
    by_cases hg : gatherChunks store uid docs = []
    · rw [ensureRebuild_empty store engine st sid docs uid hg] at hres
      exact absurd rfl hres
    · cases engine with
      | none => rw [ensureRebuild_noEngine store st sid docs uid hg]
      | some build =>
          cases hb : build (promptFor (String.intercalate "\n\n"
              (gatherChunks store uid docs))) with
          | error msg =>
              rw [ensureRebuild_buildErr store build st sid docs uid msg
                hg hb]
          | ok kv =>
              rw [ensureRebuild_buildOk store build st sid docs uid kv
                hg hb] at hres
              exact absurd rfl hres

/-! ## Claim theorems -/

/-- C1, counterexample.  Session `s1` has a prior cached handle and
fingerprint, and every requested document resolves to zero segments.  The
claim says the call returns a `NoContentError`; in fact
`ensure_documents_loaded` hits the `return` at manager.py line 86 and
returns normally (`.ok`), performing no builder call.  (The prior entry
is indeed left untouched.) -/
theorem c1_counterexample :
    ensure_documents_loaded emptyStore (some okEngine) stPrior "s1"
      ["d1", "d2"] "u" = ⟨stPrior, .ok, []⟩ := by decide

/-- C1, amended.  If, during `ensure_documents_loaded`, every requested
document resolves to zero segments so the collected segment list is
empty, the rebuild is aborted, any prior cached context entry and prior
fingerprint are left untouched, and the call returns normally (Python
`None`) with only a logged warning — no `NoContentError` or other error
reaches the caller, and the engine is never invoked. -/
theorem c1_empty_rebuild_returns_normally
    (store : String → String → List String)
    (engine : Option (String → Except String String)) (st : ManagerState)
    (sid : String) (docs : List String) (uid : String)
    (hmiss : isHit st sid docs = false)
    (hempty : gatherChunks store uid docs = []) :
    ensure_documents_loaded store engine st sid docs uid
      = ⟨st, .ok, []⟩ := by
  rw [ensure_miss store engine st sid docs uid hmiss]
  exact ensureRebuild_empty store engine st sid docs uid hempty

/-- C1, witness: the amended theorem applied at the concrete input of the
counterexample. -/
theorem c1_witness :
    isHit stPrior "s1" ["d1", "d2"] = false ∧
    gatherChunks emptyStore "u" ["d1", "d2"] = [] ∧
    ensure_documents_loaded emptyStore (some okEngine) stPrior "s1"
      ["d1", "d2"] "u" = ⟨stPrior, .ok, []⟩ :=
  ⟨by decide, by decide,
   c1_empty_rebuild_returns_normally emptyStore (some okEngine) stPrior
     "s1" ["d1", "d2"] "u" (by decide) (by decide)⟩

/-- C4.  If the engine call fails during a rebuild, the error is
re-raised to the caller (manager.py line 159) and both the KV-cache map
and the fingerprint map are exactly as before the attempt; the same
frame property holds for the other failure mode (no engine connected):
no failed `ensure_documents_loaded` writes to either map. -/
theorem c4_builder_failure_preserves_state
    (store : String → String → List String)
    (build : String → Except String String) (st : ManagerState)
    (sid : String) (docs : List String) (uid : String) (msg : String)
    (hmiss : isHit st sid docs = false)
    (hne : gatherChunks store uid docs ≠ [])
    (hfail : build (promptFor
        (String.intercalate "\n\n" (gatherChunks store uid docs)))
      = .error msg) :
    ensure_documents_loaded store (some build) st sid docs uid
      = ⟨st, .buildFailed msg,
         [String.intercalate "\n\n" (gatherChunks store uid docs)]⟩
    ∧ ensure_documents_loaded store none st sid docs uid
        = ⟨st, .engineNotConnected, []⟩ := by
  constructor
  · rw [ensure_miss store (some build) st sid docs uid hmiss]
    exact ensureRebuild_buildErr store build st sid docs uid msg hne hfail
  · rw [ensure_miss store none st sid docs uid hmiss]
    exact ensureRebuild_noEngine store st sid docs uid hne

/-- C4, witness: a failing engine on a cache miss for `s1` over the
scenario store, starting from a state with a prior entry. -/
theorem c4_witness :
    isHit stPrior "s1" ["d1", "d2"] = false ∧
    gatherChunks demoStore "u" ["d1", "d2"] ≠ [] ∧
    failEngine (promptFor (String.intercalate "\n\n"
      (gatherChunks demoStore "u" ["d1", "d2"]))) = .error "boom" ∧
    ensure_documents_loaded demoStore (some failEngine) stPrior "s1"
      ["d1", "d2"] "u"
      = ⟨stPrior, .buildFailed "boom", ["a\n\nb\n\nc"]⟩ :=
  ⟨by decide, by decide, rfl,
   by
    have h := (c4_builder_failure_preserves_state demoStore failEngine
      stPrior "s1" ["d1", "d2"] "u" "boom" (by decide) (by decide) rfl).1
    simpa using h⟩

/-- C9.  With no LLM engine connected, a call whose requested ids equal
the stored fingerprint as a set still returns normally; a cache miss
whose documents yield at least one segment raises the
`ValueError("LLM engine not connected")` of manager.py line 112, leaving
both maps unchanged. -/
theorem c9_no_engine_behaviour (store : String → String → List String)
    (st : ManagerState) (sid : String) (docs : List String)
    (uid : String) :
    (isHit st sid docs = true →
      ensure_documents_loaded store none st sid docs uid
        = ⟨st, .ok, []⟩)
    ∧ (isHit st sid docs = false → gatherChunks store uid docs ≠ [] →
        ensure_documents_loaded store none st sid docs uid
          = ⟨st, .engineNotConnected, []⟩) := by
  constructor
  · intro hhit
    exact ensure_hit store none st sid docs uid hhit
  · intro hmiss hne
    rw [ensure_miss store none st sid docs uid hmiss]
    exact ensureRebuild_noEngine store st sid docs uid hne

/-- C9, witness: a hit for `s1` (stored fingerprint `["d1"]`) and a miss
for `s2` on the same engine-less manager. -/
theorem c9_witness :
    ensure_documents_loaded demoStore none stHit "s1" ["d1"] "u"
      = ⟨stHit, .ok, []⟩
    ∧ ensure_documents_loaded demoStore none stHit "s2" ["d1"] "u"
      = ⟨stHit, .engineNotConnected, []⟩ :=
  ⟨(c9_no_engine_behaviour demoStore stHit "s1" ["d1"] "u").1 (by decide),
   (c9_no_engine_behaviour demoStore stHit "s2" ["d1"] "u").2 (by decide)
     (by decide)⟩

/-- C6.  The §8 scenario: session `s1`, documents `["d1","d2"]`, `d1`
with segments `["a","b"]`, `d2` with `["c"]`.  The first call builds the
single blob `"a\n\nb\n\nc"` (documents in requested order, chunks in
chunk-index order, double-newline separated), invokes the engine exactly
once, stores the resulting handle and records the fingerprint
`["d1","d2"]`. -/
theorem c6_scenario_first_call :
    ensure_documents_loaded demoStore (some okEngine) st0 "s1"
      ["d1", "d2"] "u"
      = ⟨⟨[("s1", "handle1")], [("s1", ["d1", "d2"])]⟩, .ok,
         ["a\n\nb\n\nc"]⟩ := by decide

/-- C7.  Whenever at least one requested document resolves to segments,
documents resolving to zero segments are skipped without failing the
call: the rebuild succeeds, the gathered text is exactly the text of the
non-empty documents (in order), the handle is stored and the fingerprint
recorded. -/
theorem c7_partial_content (store : String → String → List String)
    (build : String → Except String String) (st : ManagerState)
    (sid : String) (docs : List String) (uid : String) (kv : String)
    (hmiss : isHit st sid docs = false)
    (hsome : ∃ d ∈ docs, store d uid ≠ [])
    (hb : build (promptFor
        (String.intercalate "\n\n" (gatherChunks store uid docs)))
      = .ok kv) :
    ensure_documents_loaded store (some build) st sid docs uid
      = ⟨{ session_kv_caches := aset st.session_kv_caches sid kv,
           session_document_map := aset st.session_document_map sid docs },
         .ok,
         [String.intercalate "\n\n" (gatherChunks store uid docs)]⟩
    ∧ gatherChunks store uid docs
        = gatherChunks store uid
            (docs.filter (fun d => !(store d uid).isEmpty)) := by
  have hne : gatherChunks store uid docs ≠ [] := by
    intro hnil
    obtain ⟨d, hd, hne'⟩ := hsome
    exact hne' ((gatherChunks_eq_nil_iff store uid docs).1 hnil d hd)
  exact ⟨ensure_build_spec store build st sid docs uid kv hmiss hne hb,
         gatherChunks_filter_nonempty store uid docs⟩

/-- C7, witness: documents `X` (three segments) and `Y` (unknown):
the call succeeds using only `X`'s segments. -/
theorem c7_witness :
    isHit st0 "s1" ["X", "Y"] = false ∧
    ("X" ∈ (["X", "Y"] : List String) ∧ storeXY "X" "u" ≠ []) ∧
    ensure_documents_loaded storeXY (some okEngine) st0 "s1" ["X", "Y"] "u"
      = ⟨⟨[("s1", "handle1")], [("s1", ["X", "Y"])]⟩, .ok,
         ["x1\n\nx2\n\nx3"]⟩ :=
  ⟨by decide, ⟨by decide, by decide⟩,
   by
    have h := (c7_partial_content storeXY okEngine st0 "s1" ["X", "Y"] "u"
      "handle1" (by decide) ⟨"X", by decide, by decide⟩ rfl).1
    simpa using h⟩

theorem isHit_eq_true_iff {st : ManagerState} {sid : String}
    {docs : List String} :
    isHit st sid docs = true ↔
    ∃ cur, alookup st.session_document_map sid = some cur ∧
      setEqL cur docs = true := by
  unfold isHit
  cases hl : alookup st.session_document_map sid with
  | none => simp
  | some cur => simp

theorem isHit_of_setEq {st : ManagerState} {sid : String}
    {l1 l2 : List String} (h : isHit st sid l1 = true)
    (hs : setEqL l1 l2 = true) : isHit st sid l2 = true := by
  rw [isHit_eq_true_iff] at h ⊢
  obtain ⟨cur, hl, hcur⟩ := h
  exact ⟨cur, hl, setEqL_trans hcur hs⟩

theorem isHit_false_of_setEq {st : ManagerState} {sid : String}
    {l1 l2 : List String} (h : isHit st sid l1 = false)
    (hs : setEqL l1 l2 = true) : isHit st sid l2 = false := by
  cases hb : isHit st sid l2 with
  | false => rfl
  | true =>
      rw [isHit_of_setEq hb (setEqL_symm hs)] at h
      exact absurd h (by simp)

theorem gather_nil_of_setEq (store : String → String → List String)
    (uid : String) {l1 l2 : List String}
    (h : gatherChunks store uid l1 = []) (hs : setEqL l1 l2 = true) :
    gatherChunks store uid l2 = [] := by
  rw [gatherChunks_eq_nil_iff] at h ⊢
  intro d hd
  exact h d ((setEqL_iff.1 hs d).2 hd)

/-- C5.  If a first `ensure_documents_loaded` call for `l1` returns
normally, then a second call with any list `l2` that is set-equal to `l1`
also returns normally, the two calls together invoke the engine at most
once, and whenever the first call did invoke the engine the second call
is a pure cache hit: it changes nothing and performs no engine call,
because the fingerprint comparison of manager.py line 70 is set-based. -/
theorem c5_set_based_idempotence (store : String → String → List String)
    (engine : Option (String → Except String String)) (st : ManagerState)
    (sid : String) (uid : String) (l1 l2 : List String)
    (hset : setEqL l1 l2 = true)
    (hok : (ensure_documents_loaded store engine st sid l1 uid).result
      = .ok) :
    (ensure_documents_loaded store engine
        (ensure_documents_loaded store engine st sid l1 uid).state sid l2
        uid)
      = ⟨(ensure_documents_loaded store engine st sid l1 uid).state,
         .ok, []⟩
    ∧ (ensure_documents_loaded store engine st sid l1 uid).builtTexts.length
        + (ensure_documents_loaded store engine
            (ensure_documents_loaded store engine st sid l1 uid).state sid
            l2 uid).builtTexts.length ≤ 1 := by
  by_cases hhit : isHit st sid l1 = true
  · have e1 := ensure_hit store engine st sid l1 uid hhit
    have hsecond : ensure_documents_loaded store engine
        (ensure_documents_loaded store engine st sid l1 uid).state sid l2
        uid = ⟨(ensure_documents_loaded store engine st sid l1 uid).state,
          .ok, []⟩ := by
      rw [e1]
      exact ensure_hit store engine st sid l2 uid (isHit_of_setEq hhit hset)
    refine ⟨hsecond, ?_⟩
    rw [hsecond, e1]
    simp
  · have hmiss : isHit st sid l1 = false := by simpa using hhit
    by_cases hg : gatherChunks store uid l1 = []
    · have e1 : ensure_documents_loaded store engine st sid l1 uid
          = ⟨st, .ok, []⟩ := by
        rw [ensure_miss store engine st sid l1 uid hmiss]
        exact ensureRebuild_empty store engine st sid l1 uid hg
      have hm2 : isHit st sid l2 = false := isHit_false_of_setEq hmiss hset
      have hg2 : gatherChunks store uid l2 = [] :=
        gather_nil_of_setEq store uid hg hset
      have hsecond : ensure_documents_loaded store engine
          (ensure_documents_loaded store engine st sid l1 uid).state sid l2
          uid = ⟨(ensure_documents_loaded store engine st sid l1
            uid).state, .ok, []⟩ := by
        rw [e1]
        rw [ensure_miss store engine st sid l2 uid hm2]
        exact ensureRebuild_empty store engine st sid l2 uid hg2
      refine ⟨hsecond, ?_⟩
      rw [hsecond, e1]
      simp
    · cases engine with
      | none =>
          rw [ensure_miss store none st sid l1 uid hmiss,
            ensureRebuild_noEngine store st sid l1 uid hg] at hok
          exact absurd hok (by simp)
      | some build =>
          cases hb : build (promptFor (String.intercalate "\n\n"
              (gatherChunks store uid l1))) with
          | error msg =>
              rw [ensure_miss store (some build) st sid l1 uid hmiss,
                ensureRebuild_buildErr store build st sid l1 uid msg hg
                  hb] at hok
              exact absurd hok (by simp)
          | ok kv =>
              have e1 := ensure_build_spec store build st sid l1 uid kv
                hmiss hg hb
              have hsecond : ensure_documents_loaded store (some build)
                  (ensure_documents_loaded store (some build) st sid l1
                    uid).state sid l2 uid
                  = ⟨(ensure_documents_loaded store (some build) st sid l1
                      uid).state, .ok, []⟩ := by
                rw [e1]
                exact ensure_hit store (some build) _ sid l2 uid
                  (isHit_intro (alookup_aset_self _ _ _) hset)
              refine ⟨hsecond, ?_⟩
              rw [hsecond, e1]
              simp

/-- C5, witness: first call with `["d1","d2"]` builds; second call with
`["d2","d1"]` (same set, different order) is a cache hit with no engine
call. -/
theorem c5_witness :
    setEqL ["d1", "d2"] ["d2", "d1"] = true ∧
    (ensure_documents_loaded demoStore (some okEngine) st0 "s1"
      ["d1", "d2"] "u").result = .ok ∧
    ensure_documents_loaded demoStore (some okEngine)
        (ensure_documents_loaded demoStore (some okEngine) st0 "s1"
          ["d1", "d2"] "u").state "s1" ["d2", "d1"] "u"
      = ⟨(ensure_documents_loaded demoStore (some okEngine) st0 "s1"
          ["d1", "d2"] "u").state, .ok, []⟩ :=
  ⟨by decide, by decide,
   (c5_set_based_idempotence demoStore (some okEngine) st0 "s1" "u"
     ["d1", "d2"] ["d2", "d1"] (by decide) (by decide)).1⟩

/-! ## Claims about the session registry -/

theorem mem_pyUnion (old ids : List String) (d : String) :
    d ∈ pyUnion old ids ↔ d ∈ old ∨ d ∈ ids := by
  simp only [pyUnion, List.mem_append, List.mem_filter, decide_eq_true_eq]
  constructor
  · rintro (h | ⟨h1, _⟩)
    · exact .inl h
    · exact .inr h1
  · rintro (h | h)
    · exact .inl h
    · by_cases hd : d ∈ old
      · exact .inl hd
      · exact .inr ⟨h, hd⟩

theorem pyUnion_idem (old ids : List String) :
    pyUnion (pyUnion old ids) ids = pyUnion old ids := by
  have hfilter :
      ids.filter (fun d => decide (¬ d ∈ pyUnion old ids)) = [] := by
    rw [List.filter_eq_nil_iff]
    intro d hd
    have : d ∈ pyUnion old ids := (mem_pyUnion old ids d).2 (Or.inr hd)
    simp [this]
  show pyUnion old ids ++ _ = pyUnion old ids
  rw [hfilter, List.append_nil]

theorem pyUnion_nodup (old ids : List String) (h1 : old.Nodup)
    (h2 : ids.Nodup) : (pyUnion old ids).Nodup := by
  rw [pyUnion, List.nodup_append]
  refine ⟨h1, h2.filter _, ?_⟩
  intro d hd hdf
  have := List.of_mem_filter hdf
  simp only [decide_eq_true_eq] at this
  exact this hd

/-- C8, counterexample.  A single `add_documents` call whose input list
repeats `"d1"` appends it twice: the membership filter checks only
against the pre-call bound list, so the resulting bound list is
`["d1","d1"]`, which does not contain each ID at most once. -/
theorem c8_counterexample :
    ((⟨"s", "u", 0, 0, [], []⟩ : Session).add_documents ["d1", "d1"]
      5).document_ids = ["d1", "d1"]
    ∧ ¬ (["d1", "d1"] : List String).Nodup := by decide

/-- C8, amended.  `add_documents` unions the incoming IDs into the bound
list: membership afterwards is membership before or membership in the
input; IDs already bound are never appended again, and applying the same
call twice yields the same bound list as applying it once (idempotence,
regardless of the timestamps).  The resulting list contains each ID at
most once provided the prior list did and the incoming list carries no
internal duplicates — an ID repeated inside one call's list is appended
once per occurrence. -/
theorem c8_bind_documents_union (s : Session) (ids : List String)
    (now now₂ : Nat) (d : String) :
    (((s.add_documents ids now).add_documents ids now₂).document_ids
        = (s.add_documents ids now).document_ids)
    ∧ (d ∈ (s.add_documents ids now).document_ids ↔
        d ∈ s.document_ids ∨ d ∈ ids)
    ∧ (s.document_ids.Nodup → ids.Nodup →
        (s.add_documents ids now).document_ids.Nodup) := by
  refine ⟨?_, ?_, ?_⟩
  · show pyUnion (pyUnion s.document_ids ids) ids = pyUnion s.document_ids ids
    exact pyUnion_idem s.document_ids ids
  · exact mem_pyUnion s.document_ids ids d
  · intro h1 h2
    exact pyUnion_nodup s.document_ids ids h1 h2

/-- C8, witness: the amended theorem at a concrete session and input. -/
theorem c8_witness :
    ((sessionW.add_documents ["d0", "d1"] 1).add_documents ["d0", "d1"]
        2).document_ids
      = (sessionW.add_documents ["d0", "d1"] 1).document_ids
    ∧ ("d1" ∈ (sessionW.add_documents ["d0", "d1"] 1).document_ids ↔
        "d1" ∈ sessionW.document_ids ∨ "d1" ∈ (["d0", "d1"] : List String))
    ∧ (sessionW.add_documents ["d0", "d1"] 1).document_ids.Nodup := by
  have h := c8_bind_documents_union sessionW ["d0", "d1"] 1 2 "d1"
  exact ⟨h.1, h.2.1, h.2.2 (by decide) (by decide)⟩

/-- C10.  For a session already present in the registry,
`get_or_create_session` returns that session with only
`last_accessed_at` updated — owner, history and bound documents
unchanged, the reverse index untouched — and the passed `user_id` is
never consulted: the result is the same as if the owning user had been
passed. -/
theorem c10_get_or_create_existing (st : SessionManagerState)
    (sid uid : String) (now : Nat) (s : Session)
    (h : alookup st.sessions sid = some s) :
    get_or_create_session st sid uid now
      = ({ s with last_accessed_at := now },
         { st with sessions :=
                    aset st.sessions sid
                      ({ s with last_accessed_at := now }) })
    ∧ get_or_create_session st sid uid now
        = get_or_create_session st sid s.user_id now := by
  unfold get_or_create_session
  rw [h]
  exact ⟨rfl, rfl⟩

/-- C10, witness: an existing session `s1` owned by `u`, requested with a
different user id `intruder`. -/
theorem c10_witness :
    alookup expiredRegistry.sessions "s1"
      = some ⟨"s1", "u", 0, 0, [], ["d1"]⟩
    ∧ get_or_create_session expiredRegistry "s1" "intruder" 7
      = (⟨"s1", "u", 0, 7, [], ["d1"]⟩,
         { expiredRegistry with
           sessions := aset expiredRegistry.sessions "s1"
             (⟨"s1", "u", 0, 7, [], ["d1"]⟩ : Session) })
    ∧ get_or_create_session expiredRegistry "s1" "intruder" 7
      = get_or_create_session expiredRegistry "s1" "u" 7 := by
  have h := c10_get_or_create_existing expiredRegistry "s1" "intruder" 7
    ⟨"s1", "u", 0, 0, [], ["d1"]⟩ (by decide)
  exact ⟨by decide, h.1, h.2⟩

theorem alookup_mem {α : Type} (m : List (String × α)) (k : String)
    (v : α) (h : alookup m k = some v) : (k, v) ∈ m := by
  induction m with
  | nil => simp [alookup] at h
  | cons p rest ih =>
      obtain ⟨k₀, v₀⟩ := p
      by_cases hk : k₀ = k
      · subst hk
        have hv : v₀ = v := by simpa [alookup] using h
        subst hv
        exact List.mem_cons_self _ _
      · simp only [alookup, if_neg hk] at h
        exact List.mem_cons_of_mem _ (ih h)

theorem delete_session_absent (st : SessionManagerState) (sid : String)
    (hnd : (st.sessions.map Prod.fst).Nodup) :
    alookup (delete_session st sid).2.sessions sid = none := by
  unfold delete_session
  cases hl : alookup st.sessions sid with
  | none => exact hl
  | some s => exact alookup_aerase_self st.sessions sid hnd

theorem delete_session_preserves_absent (st : SessionManagerState)
    (sid x : String) (h : alookup st.sessions x = none) :
    alookup (delete_session st sid).2.sessions x = none := by
  unfold delete_session
  cases hl : alookup st.sessions sid with
  | none => exact h
  | some s => exact alookup_aerase_none st.sessions sid x h

theorem delete_session_keys_nodup (st : SessionManagerState) (sid : String)
    (hnd : (st.sessions.map Prod.fst).Nodup) :
    ((delete_session st sid).2.sessions.map Prod.fst).Nodup := by
  unfold delete_session
  cases hl : alookup st.sessions sid with
  | none => exact hnd
  | some s => exact aerase_keys_nodup st.sessions sid hnd

theorem foldl_delete_preserves_absent (l : List String) (x : String) :
    ∀ st : SessionManagerState, alookup st.sessions x = none →
    alookup ((l.foldl (fun acc sid => (delete_session acc sid).2)
      st).sessions) x = none := by
  induction l with
  | nil => intro st h; exact h
  | cons y rest ih =>
      intro st h
      exact ih _ (delete_session_preserves_absent st y x h)

theorem foldl_delete_absent_of_mem (l : List String) (sid : String) :
    ∀ st : SessionManagerState, (st.sessions.map Prod.fst).Nodup →
    sid ∈ l →
    alookup ((l.foldl (fun acc sid => (delete_session acc sid).2)
      st).sessions) sid = none := by
  induction l with
  | nil => intro st _ h; simp at h
  | cons y rest ih =>
      intro st hnd hmem
      rcases List.mem_cons.1 hmem with h | h
      · subst h
        exact foldl_delete_preserves_absent rest sid _
          (delete_session_absent st sid hnd)
      · exact ih _ (delete_session_keys_nodup st y hnd) h

/-- C2, counterexample.  Session `s1` idle for 100 seconds with a
10-second timeout, holding a cached context entry.  After the sweep the
session is gone from the registry — but `cleanup_expired_sessions` (via
`delete_session`) never touches the `KVCacheManager`, and nothing in the
repository invokes `clear_session_kv_cache` on eviction, so the KV cache
and the fingerprint for `s1` are still present: the cached context entry
is not gone, contradicting the claim's cascade. -/
theorem c2_counterexample :
    alookup (sweepSystem sysW 100).registry.sessions "s1" = none
    ∧ alookup (sweepSystem sysW 100).cache.session_kv_caches "s1"
        = some "h"
    ∧ alookup (sweepSystem sysW 100).cache.session_document_map "s1"
        = some ["d1"] := by decide

/-- C2, amended.  After a sweep, every session whose idle time
`now - last_accessed_at` strictly exceeds the configured timeout is
absent from the session registry; but the sweep leaves the cache
manager's state — the session's KV cache and document fingerprint —
entirely unchanged (no cascade to the cached context entry exists in the
code). -/
theorem c2_sweep_evicts_registry_only (sys : SystemState) (now : Nat)
    (sid : String) (s : Session)
    (hnd : (sys.registry.sessions.map Prod.fst).Nodup)
    (hs : alookup sys.registry.sessions sid = some s)
    (hexp : now - s.last_accessed_at > sys.registry.session_timeout) :
    alookup (sweepSystem sys now).registry.sessions sid = none
    ∧ (sweepSystem sys now).cache = sys.cache := by
  refine ⟨?_, rfl⟩
  show alookup (cleanup_expired_sessions sys.registry now).2.sessions sid
    = none
  unfold cleanup_expired_sessions
  apply foldl_delete_absent_of_mem _ _ _ hnd
  have hmem : (sid, s) ∈ sys.registry.sessions := alookup_mem _ _ _ hs
  have hfil : (sid, s) ∈ sys.registry.sessions.filter
      (fun p => decide (now - p.2.last_accessed_at
        > sys.registry.session_timeout)) := by
    rw [List.mem_filter]
    exact ⟨hmem, by simpa using hexp⟩
  exact List.mem_map_of_mem _ hfil

/-- C2, witness: the amended theorem at the counterexample's system. -/
theorem c2_witness :
    (sysW.registry.sessions.map Prod.fst).Nodup
    ∧ alookup sysW.registry.sessions "s1"
        = some ⟨"s1", "u", 0, 0, [], ["d1"]⟩
    ∧ (100 - (0 : Nat) > sysW.registry.session_timeout)
    ∧ alookup (sweepSystem sysW 100).registry.sessions "s1" = none
    ∧ (sweepSystem sysW 100).cache = sysW.cache :=
  ⟨by decide, by decide, by decide,
   (c2_sweep_evicts_registry_only sysW 100 "s1"
     ⟨"s1", "u", 0, 0, [], ["d1"]⟩ (by decide) (by decide) (by decide)).1,
   (c2_sweep_evicts_registry_only sysW 100 "s1"
     ⟨"s1", "u", 0, 0, [], ["d1"]⟩ (by decide) (by decide) (by decide)).2⟩

/-! ## Lemmas for the concurrency model -/

theorem getElem?_some_lt {α : Type} {l : List α} {j : Nat} {x : α}
    (h : l[j]? = some x) : j < l.length := by
  by_contra hlt
  push_neg at hlt
  rw [List.getElem?_eq_none hlt] at h
  exact Option.noConfusion h

theorem getElem?_set_self_of_lt {α : Type} (l : List α) (i : Nat) (a : α)
    (h : i < l.length) : (l.set i a)[i]? = some a := by
  simp [List.getElem?_set_self, h]

theorem mem_of_getElem? {α : Type} {l : List α} {j : Nat} {x : α}
    (h : l[j]? = some x) : x ∈ l := by
  have hlt := getElem?_some_lt h
  rw [List.getElem?_eq_getElem hlt] at h
  exact (Option.some.inj h) ▸ List.getElem_mem hlt

theorem orchStep_tasks_length (store : String → String → List String)
    (engine : Option (String → Except String String))
    {a b : OrchConfig} {i : Nat} (h : OrchStep store engine a i b) :
    b.tasks.length = a.tasks.length := by
  cases h with
  | acquire t hfree ht hph => simp
  | finish t hhold ht hph => simp

theorem orchReaches_tasks_length (store : String → String → List String)
    (engine : Option (String → Except String String))
    {a b : OrchConfig} (h : OrchReaches store engine a b) :
    b.tasks.length = a.tasks.length := by
  induction h with
  | refl => rfl
  | tail hr hs ih => rw [orchStep_tasks_length store engine hs, ih]

/-- One step preserves the lock discipline. -/
theorem lockInv_step (store : String → String → List String)
    (engine : Option (String → Except String String))
    {a b : OrchConfig} {i : Nat} (h : OrchStep store engine a i b)
    (hinv : LockInv a) : LockInv b := by
  cases h with
  | acquire t hfree ht hph =>
      constructor
      · intro hnone
        simp at hnone
      · intro i' hi' j t' hj hl
        have hii : i = i' := by simpa using hi'
        subst hii
        by_cases hji : j = i
        · exact hji
        · have hj' : (a.tasks.set i { t with phase := .locked })[j]?
              = some t' := hj
          rw [List.getElem?_set_ne (fun hh => hji hh.symm)] at hj'
          exact absurd hl (hinv.1 hfree j t' hj')
  | finish t hhold ht hph =>
      constructor
      · intro _ j t' hj hl
        have hj' : (a.tasks.set i
            { t with phase := .finished (ensure_documents_loaded store
                engine a.mgr t.sid t.docs t.uid).result })[j]?
            = some t' := hj
        by_cases hji : j = i
        · subst hji
          rw [getElem?_set_self_of_lt _ _ _ (getElem?_some_lt ht)] at hj'
          obtain rfl := Option.some.inj hj'
          simp at hl
        · rw [List.getElem?_set_ne (fun hh => hji hh.symm)] at hj'
          exact hji (hinv.2 i hhold j t' hj' hl)
      · intro i' hi'
        simp at hi'

/-- The lock discipline holds in every reachable configuration. -/
theorem lockInv_reaches (store : String → String → List String)
    (engine : Option (String → Except String String))
    {a b : OrchConfig} (hr : OrchReaches store engine a b)
    (hinv : LockInv a) : LockInv b := by
  induction hr with
  | refl => exact hinv
  | tail hr hs ih => exact lockInv_step store engine hs ih

/-- One step preserves `BuildInv`, for a family of identical callers
whose request misses on `mgr0`, has usable segments, and whose engine
call succeeds. -/
theorem buildInv_step (store : String → String → List String)
    (build : String → Except String String) (sid : String)
    (docs : List String) (uid : String) (mgr0 : ManagerState) (kv : String)
    (hmiss : isHit mgr0 sid docs = false)
    (hne : gatherChunks store uid docs ≠ [])
    (hb : build (promptFor (String.intercalate "\n\n"
      (gatherChunks store uid docs))) = .ok kv)
    {a b : OrchConfig} {i : Nat}
    (h : OrchStep store (some build) a i b)
    (hinv : BuildInv store (some build) sid docs uid mgr0 a) :
    BuildInv store (some build) sid docs uid mgr0 b := by
  obtain ⟨hsame, hstate⟩ := hinv
  cases h with
  | acquire t hfree ht hph =>
      constructor
      · intro j t' hj
        have hj' : (a.tasks.set i { t with phase := .locked })[j]?
            = some t' := hj
        by_cases hji : j = i
        · subst hji
          rw [getElem?_set_self_of_lt _ _ _ (getElem?_some_lt ht)] at hj'
          obtain rfl := Option.some.inj hj'
          exact hsame j t ht
        · rw [List.getElem?_set_ne (fun hh => hji hh.symm)] at hj'
          exact hsame j t' hj'
      · rcases hstate with ⟨hm, hb0, hnofin⟩ | ⟨hm, hb1, hfin⟩
        · left
          refine ⟨hm, hb0, ?_⟩
          intro j t' hj r
          have hj' : (a.tasks.set i { t with phase := .locked })[j]?
              = some t' := hj
          by_cases hji : j = i
          · subst hji
            rw [getElem?_set_self_of_lt _ _ _ (getElem?_some_lt ht)] at hj'
            obtain rfl := Option.some.inj hj'
            simp
          · rw [List.getElem?_set_ne (fun hh => hji hh.symm)] at hj'
            exact hnofin j t' hj' r
        · right
          refine ⟨hm, hb1, ?_⟩
          intro j t' r hj hfin'
          have hj' : (a.tasks.set i { t with phase := .locked })[j]?
              = some t' := hj
          by_cases hji : j = i
          · subst hji
            rw [getElem?_set_self_of_lt _ _ _ (getElem?_some_lt ht)] at hj'
            obtain rfl := Option.some.inj hj'
            simp at hfin'
          · rw [List.getElem?_set_ne (fun hh => hji hh.symm)] at hj'
            exact hfin j t' r hj' hfin'
  | finish t hhold ht hph =>
      obtain ⟨hts, htd, htu⟩ := hsame i t ht
      have e1 := ensure_build_spec store build mgr0 sid docs uid kv hmiss
        hne hb
      constructor
      · intro j t' hj
        have hj' : (a.tasks.set i
            { t with phase := .finished (ensure_documents_loaded store
                (some build) a.mgr t.sid t.docs t.uid).result })[j]?
            = some t' := hj
        by_cases hji : j = i
        · subst hji
          rw [getElem?_set_self_of_lt _ _ _ (getElem?_some_lt ht)] at hj'
          obtain rfl := Option.some.inj hj'
          exact hsame j t ht
        · rw [List.getElem?_set_ne (fun hh => hji hh.symm)] at hj'
          exact hsame j t' hj'
      · rcases hstate with ⟨hm, hb0, hnofin⟩ | ⟨hm, hb1, hfinok⟩
        · -- this finish performs the one and only rebuild
          right
          refine ⟨?_, ?_, ?_⟩
          · show (ensure_documents_loaded store (some build) a.mgr t.sid
                t.docs t.uid).state
              = (ensure_documents_loaded store (some build) mgr0 sid docs
                uid).state
            rw [hm, hts, htd, htu]
          · show a.builds + (ensure_documents_loaded store (some build)
                a.mgr t.sid t.docs t.uid).builtTexts.length = 1
            rw [hb0, hm, hts, htd, htu, e1]
            simp
          · intro j t' r hj hfin'
            have hj' : (a.tasks.set i
                { t with phase := .finished (ensure_documents_loaded store
                    (some build) a.mgr t.sid t.docs t.uid).result })[j]?
                = some t' := hj
            by_cases hji : j = i
            · subst hji
              rw [getElem?_set_self_of_lt _ _ _ (getElem?_some_lt ht)]
                at hj'
              obtain rfl := Option.some.inj hj'
              have hfin'' : TaskPhase.finished ((ensure_documents_loaded
                  store (some build) a.mgr t.sid t.docs t.uid).result)
                  = TaskPhase.finished r := hfin'
              have hres : (ensure_documents_loaded store (some build)
                  a.mgr t.sid t.docs t.uid).result = .ok := by
                rw [hm, hts, htd, htu, e1]
              rw [← TaskPhase.finished.inj hfin'']
              exact hres
            · rw [List.getElem?_set_ne (fun hh => hji hh.symm)] at hj'
              exact absurd hfin' (hnofin j t' hj' r)
        · -- the rebuild already ran: this finish is a pure cache hit
          right
          have hhit := isHit_after_build store build mgr0 sid docs uid kv
            hmiss hne hb
          have e2 : ensure_documents_loaded store (some build) a.mgr t.sid
              t.docs t.uid
              = ⟨a.mgr, .ok, []⟩ := by
            rw [hts, htd, htu, hm]
            exact ensure_hit store (some build) _ sid docs uid hhit
          refine ⟨?_, ?_, ?_⟩
          · show (ensure_documents_loaded store (some build) a.mgr t.sid
                t.docs t.uid).state
              = (ensure_documents_loaded store (some build) mgr0 sid docs
                uid).state
            rw [e2]
            exact hm
          · show a.builds + (ensure_documents_loaded store (some build)
                a.mgr t.sid t.docs t.uid).builtTexts.length = 1
            rw [hb1, e2]
            simp
          · intro j t' r hj hfin'
            have hj' : (a.tasks.set i
                { t with phase := .finished (ensure_documents_loaded store
                    (some build) a.mgr t.sid t.docs t.uid).result })[j]?
                = some t' := hj
            by_cases hji : j = i
            · subst hji
              rw [getElem?_set_self_of_lt _ _ _ (getElem?_some_lt ht)]
                at hj'
              obtain rfl := Option.some.inj hj'
              have hfin'' : TaskPhase.finished ((ensure_documents_loaded
                  store (some build) a.mgr t.sid t.docs t.uid).result)
                  = TaskPhase.finished r := hfin'
              have hres : (ensure_documents_loaded store (some build)
                  a.mgr t.sid t.docs t.uid).result = .ok := by
                rw [e2]
              rw [← TaskPhase.finished.inj hfin'']
              exact hres
            · rw [List.getElem?_set_ne (fun hh => hji hh.symm)] at hj'
              exact hfinok j t' r hj' hfin'

/-- `BuildInv` holds in every reachable configuration. -/
theorem buildInv_reaches (store : String → String → List String)
    (build : String → Except String String) (sid : String)
    (docs : List String) (uid : String) (mgr0 : ManagerState) (kv : String)
    (hmiss : isHit mgr0 sid docs = false)
    (hne : gatherChunks store uid docs ≠ [])
    (hb : build (promptFor (String.intercalate "\n\n"
      (gatherChunks store uid docs))) = .ok kv)
    {a b : OrchConfig} (hr : OrchReaches store (some build) a b)
    (hinv : BuildInv store (some build) sid docs uid mgr0 a) :
    BuildInv store (some build) sid docs uid mgr0 b := by
  induction hr with
  | refl => exact hinv
  | tail hr hs ih =>
      exact buildInv_step store build sid docs uid mgr0 kv hmiss hne hb
        hs ih

/-- C3, counterexample.  Two concurrent callers for the two distinct
sessions `s1` and `s2`.  From the initial configuration one legal step
lets the `s1` caller take the process-wide lock, putting its rebuild in
flight; in the resulting configuration the `s2` caller has no enabled
transition at all — it is suspended on the same `asyncio.Lock` and its
rebuild for a different session cannot begin until `s1`'s rebuild
completes.  Rebuilds for distinct sessions therefore serialize against
each other, contradicting the claim. -/
theorem c3_counterexample :
    OrchStep demoStore (some okEngine) cfgTwoSessions 0 cfgBlocked
    ∧ cfgBlocked.tasks[0]? = some ⟨"s1", ["d1"], "u", .locked⟩
    ∧ cfgBlocked.tasks[1]? = some ⟨"s2", ["d2"], "u", .start⟩
    ∧ Suspended demoStore (some okEngine) cfgBlocked 1 := by
  refine ⟨?_, by decide, by decide, ?_⟩
  · exact OrchStep.acquire cfgTwoSessions 0 ⟨"s1", ["d1"], "u", .start⟩
      rfl rfl rfl
  · intro c h
    cases h with
    | acquire t hfree ht hph => exact absurd hfree (by decide)
    | finish t hhold ht hph => exact absurd hhold (by decide)

/-- C3, amended.  All `ensure_documents_loaded` calls serialize through
one process-wide lock, so at most one rebuild is in flight at a time —
globally, and in particular per session.  N concurrent callers for the
same session and same document set perform exactly one engine invocation,
and once all have returned every caller has returned normally and
observes the single installed handle.  However, rebuilds for distinct
sessions DO serialize against each other (see the counterexample): the
lock is not per-session. -/
theorem c3_single_flight_global_lock
    (store : String → String → List String)
    (build : String → Except String String) (sid : String)
    (docs : List String) (uid : String) (mgr0 : ManagerState)
    (kv : String) (cfg0 : OrchConfig)
    (hmiss : isHit mgr0 sid docs = false)
    (hne : gatherChunks store uid docs ≠ [])
    (hb : build (promptFor (String.intercalate "\n\n"
      (gatherChunks store uid docs))) = .ok kv)
    (hstart : tasksAllStart cfg0 sid docs uid = true)
    (hfree : cfg0.lockHolder = none)
    (hmgr : cfg0.mgr = mgr0)
    (hbuilds : cfg0.builds = 0)
    (hnonempty : cfg0.tasks ≠ []) :
    ∀ cfg' : OrchConfig, OrchReaches store (some build) cfg0 cfg' →
      AtMostOneRebuildInFlight cfg'
      ∧ (allFinished cfg' = true →
          cfg'.builds = 1
          ∧ get_session_kv_cache cfg'.mgr sid = some kv
          ∧ allFinishedOk cfg' = true) := by
  have hstart' : ∀ (j : Nat) (t : CTask), cfg0.tasks[j]? = some t →
      t.sid = sid ∧ t.docs = docs ∧ t.uid = uid ∧ t.phase = .start := by
    intro j t hj
    have hmem := mem_of_getElem? hj
    have hall := List.all_eq_true.1 hstart t hmem
    simp only [Bool.and_eq_true, decide_eq_true_eq] at hall
    exact ⟨hall.1.1.1, hall.1.1.2, hall.1.2, hall.2⟩
  have hlock0 : LockInv cfg0 := by
    constructor
    · intro _ j t hj
      rw [(hstart' j t hj).2.2.2]
      simp
    · intro i hi
      rw [hfree] at hi
      exact absurd hi (by simp)
  have hbuild0 : BuildInv store (some build) sid docs uid mgr0 cfg0 := by
    constructor
    · intro j t hj
      obtain ⟨h1, h2, h3, _⟩ := hstart' j t hj
      exact ⟨h1, h2, h3⟩
    · left
      refine ⟨hmgr, hbuilds, ?_⟩
      intro j t hj r
      rw [(hstart' j t hj).2.2.2]
      simp
  intro cfg' hreach
  have hlock := lockInv_reaches store (some build) hreach hlock0
  have hbuild := buildInv_reaches store build sid docs uid mgr0 kv hmiss
    hne hb hreach hbuild0
  constructor
  · intro j k tj tk hj hk hlj hlk
    cases hh : cfg'.lockHolder with
    | none => exact absurd hlj (hlock.1 hh j tj hj)
    | some i =>
        exact (hlock.2 i hh j tj hj hlj).trans
          (hlock.2 i hh k tk hk hlk).symm
  · intro hfin
    rcases hbuild.2 with ⟨hm, hb0, hnofin⟩ | ⟨hm, hb1, hfinok⟩
    · exfalso
      have hlen : cfg'.tasks.length = cfg0.tasks.length :=
        orchReaches_tasks_length store (some build) hreach
      have hpos : 0 < cfg'.tasks.length := by
        rw [hlen]
        cases h0 : cfg0.tasks with
        | nil => exact absurd h0 hnonempty
        | cons x xs => simp
      obtain ⟨t0, ht0⟩ : ∃ t0, cfg'.tasks[0]? = some t0 :=
        ⟨_, List.getElem?_eq_getElem hpos⟩
      have hmem := mem_of_getElem? ht0
      have hfin0 := List.all_eq_true.1 hfin t0 hmem
      cases hp : t0.phase with
      | start => rw [hp] at hfin0; simp at hfin0
      | locked => rw [hp] at hfin0; simp at hfin0
      | finished r => exact hnofin 0 t0 ht0 r hp
    · refine ⟨hb1, ?_, ?_⟩
      · rw [hm, ensure_build_spec store build mgr0 sid docs uid kv hmiss
          hne hb]
        exact alookup_aset_self _ _ _
      · apply List.all_eq_true.2
        intro t0 hmem
        obtain ⟨j, hjlt, hjeq⟩ := List.getElem_of_mem hmem
        have hj : cfg'.tasks[j]? = some t0 := by
          rw [List.getElem?_eq_getElem hjlt, hjeq]
        have hfin0 := List.all_eq_true.1 hfin t0 hmem
        cases hp : t0.phase with
        | start => rw [hp] at hfin0; simp at hfin0
        | locked => rw [hp] at hfin0; simp at hfin0
        | finished r =>
            have hr := hfinok j t0 r hj hp
            rw [hr]
            simp

/-- C3, witness: two concurrent callers for session `s1` on the scenario
store run to completion (acquire/finish, acquire/finish); the final
configuration shows exactly one engine invocation, both callers returned
normally, the single handle installed, and at most one rebuild in
flight. -/
theorem c3_witness :
    cfgWFinal.builds = 1
    ∧ get_session_kv_cache cfgWFinal.mgr "s1" = some "handle1"
    ∧ allFinishedOk cfgWFinal = true
    ∧ AtMostOneRebuildInFlight cfgWFinal := by
  have hreach : OrchReaches demoStore (some okEngine) cfgW0 cfgWFinal :=
    OrchReaches.tail
      (OrchReaches.tail
        (OrchReaches.tail
          (OrchReaches.tail (OrchReaches.refl cfgW0)
            (OrchStep.acquire cfgW0 0 ⟨"s1", ["d1", "d2"], "u", .start⟩
              rfl rfl rfl))
          (OrchStep.finish _ 0 ⟨"s1", ["d1", "d2"], "u", .locked⟩
            rfl rfl rfl))
        (OrchStep.acquire _ 1 ⟨"s1", ["d1", "d2"], "u", .start⟩
          rfl rfl rfl))
      (OrchStep.finish _ 1 ⟨"s1", ["d1", "d2"], "u", .locked⟩
        rfl rfl rfl)
  have h := c3_single_flight_global_lock demoStore okEngine "s1"
    ["d1", "d2"] "u" st0 "handle1" cfgW0 (by decide) (by decide) rfl
    (by decide) rfl rfl rfl (by decide) cfgWFinal hreach
  exact ⟨(h.2 (by decide)).1, (h.2 (by decide)).2.1,
    (h.2 (by decide)).2.2, h.1⟩
